import Mathlib

/-!
Verification of the TTY-driver resolution library (`src/lib.rs`).

The library resolves the terminal device path controlling a process:

1. `get_tty_nr_for_pid` reads `/proc/<pid>/stat` and decodes the packed
   `tty_nr` field into `(major, minor)` via `tty_nr >> 8` / `tty_nr & 0xff`;
2. `parse_tty_drivers` parses `/proc/tty/drivers` into a list of `TtyDriver`
   records (path prefix, major, inclusive minor range);
3. `match_drivers_to_tty_nr` finds the first record covering the target;
4. `guess_tty_path` builds two candidate paths and returns the first that
   exists and whose device metadata (`rdev`) verifies against the target.

The embedding below translates each Rust function into a Lean function.
Machine integers (`i32`, `u64`) are modelled as `Int`/`Nat`; the bitwise
operations of the source act on two's-complement `i32` values, rendered here
as `>>> 8` (arithmetic shift = the source's `>> 8`) and `% 256` (the
nonnegative remainder, which is exactly the source's `& 0xff` on a
two's-complement integer).  Filesystem reads are modelled by explicit
read-result arguments (`Option String` file contents, and a map from paths
to `rdev` metadata), so every function is pure and executable.
-/

/-! ### String helpers

Rust `&str` values are modelled as `List Char` where the proofs need to look
inside the string (`String` is used at the API surface).  `splitP` is the
semantics of Rust's `str::split` with a character predicate: it cuts at every
separator character and keeps empty pieces, so the result is always nonempty.
-/

/-- Rust `str::split(p)`: split at every character satisfying `p`, keeping
empty substrings (e.g. `"-5"` splits on `'-'` into `["", "5"]`). -/
def splitP (p : Char → Bool) : List Char → List (List Char)
  | [] => [[]]
  | c :: cs =>
    if p c then [] :: splitP p cs
    else
      match splitP p cs with
      | [] => [[c]]
      | r :: rs => (c :: r) :: rs

/-- Rust `str::split('-')` and friends: split at one concrete character. -/
def splitChar (sep : Char) (cs : List Char) : List (List Char) :=
  splitP (fun c => c == sep) cs

/-- Rust `str::split_whitespace`: the maximal runs of non-whitespace
characters, i.e. split at whitespace and drop the empty pieces. -/
def split_whitespace (cs : List Char) : List (List Char) :=
  (splitP (fun c => c.isWhitespace) cs).filter (fun w => !w.isEmpty)

/-- Rust `str::parse::<i32>()`: an optional sign followed by at least one
ASCII digit, rejected when the value overflows the `i32` range. -/
def parse_i32 (cs : List Char) : Option Int :=
  match cs with
  | [] => none
  | c :: rest =>
    let sign : Int := if c == '-' then -1 else 1
    let digits : List Char := if c == '-' || c == '+' then rest else c :: rest
    if digits.isEmpty then none
    else if digits.all (fun d => d.isDigit) then
      let n : Nat := digits.foldl (fun a d => a * 10 + (d.toNat - 48)) 0
      let v : Int := sign * (n : Int)
      if -2147483648 ≤ v ∧ v ≤ 2147483647 then some v else none
    else none

/-- A line of Rust `str::lines` output: the trailing `'\r'` of a line is
stripped when the line was terminated by `"\r\n"`. -/
def stripCR (l : List Char) : List Char :=
  if l.getLast? = some '\r' then l.dropLast else l

/-- Helper for `rust_lines`: every segment but the last was cut at a `'\n'`
(so its trailing `'\r'` is stripped); the final segment is the tail after the
last newline and is dropped when empty. -/
def rust_lines_aux : List (List Char) → List (List Char)
  | [] => []
  | [l] => if l.isEmpty then [] else [l]
  | l :: ls => stripCR l :: rust_lines_aux ls

/-- Rust `str::lines`: split at `'\n'` (also eating a preceding `'\r'`),
without a trailing empty line for a trailing newline. -/
def rust_lines (cs : List Char) : List (List Char) :=
  rust_lines_aux (splitChar '\n' cs)

/-! ### Data model -/

/-- Rust `RangeInclusive<i32>`: the bounds of `start..=stop` (the source
field `end` is called `stop` here because `end` is a Lean keyword). -/
structure MinorRange where
  start : Int
  stop : Int
deriving DecidableEq, Repr

/-- `RangeInclusive::contains(&x)`: `start ≤ x && x ≤ stop`. -/
def MinorRange.contains (r : MinorRange) (x : Int) : Bool :=
  decide (r.start ≤ x) && decide (x ≤ r.stop)

/-- The Rust struct `TtyDriver`: one line of `/proc/tty/drivers`. -/
structure TtyDriver where
  path : String
  major : Int
  minor_range : MinorRange
deriving DecidableEq, Repr

/-! ### The driver-table parser -/

/-- `TtyDriver::parse_minor_range`: `"3"` or `"3-10"` to an inclusive range;
any other shape of the `'-'`-split, or an unparsable bound, gives `none`. -/
def parse_minor_range (tty_minor : List Char) : Option MinorRange :=
  let minor_range := splitChar '-' tty_minor
  if minor_range.length = 1 then do
    let start ← parse_i32 (minor_range.getD 0 [])
    some { start := start, stop := start }
  else if minor_range.length = 2 then do
    let start ← parse_i32 (minor_range.getD 0 [])
    let stop ← parse_i32 (minor_range.getD 1 [])
    some { start := start, stop := stop }
  else none

/-- The body of the parsing loop of `TtyDriver::parse_tty_drivers` for one
line: fewer than 4 whitespace-separated fields, an unparsable major (field 2)
or an unparsable minor specification (field 3) make the line `continue`
(here: `none`); otherwise field 1 is the path. -/
def parse_driver_line (line : List Char) : Option TtyDriver :=
  let parts := split_whitespace line
  if parts.length < 4 then none
  else do
    let major ← parse_i32 (parts.getD 2 [])
    let minor_range ← parse_minor_range (parts.getD 3 [])
    some { path := String.mk (parts.getD 1 []), major := major, minor_range := minor_range }

/-- The parsing loop of `TtyDriver::parse_tty_drivers` over the lines of the
registry: records of well-formed lines are pushed in file order, malformed
lines are skipped. -/
def parse_tty_driver_lines : List (List Char) → List TtyDriver
  | [] => []
  | line :: rest =>
    match parse_driver_line line with
    | some driver => driver :: parse_tty_driver_lines rest
    | none => parse_tty_driver_lines rest

/-- `TtyDriver::parse_tty_drivers`.  The read of `/proc/tty/drivers` is
modelled by the argument: `none` is a failed `read_to_string` (the source
then returns the empty vector), `some text` is the file content. -/
def parse_tty_drivers (drivers_raw : Option String) : List TtyDriver :=
  match drivers_raw with
  | none => []
  | some text => parse_tty_driver_lines (rust_lines text.data)

/-! ### The driver matcher -/

/-- `TtyDriver::match_drivers_to_tty_nr`: the first driver (in list order)
whose major equals the target major and whose minor range contains the
target minor (`Iterator::find` is `List.find?`). -/
def match_drivers_to_tty_nr (drivers : List TtyDriver) (tty_major tty_minor : Int) :
    Option TtyDriver :=
  drivers.find? (fun driver =>
    driver.major == tty_major && driver.minor_range.contains tty_minor)

/-! ### Device-number decoding -/

/-- The decoding of a packed device number used in `get_tty_nr_for_pid`
(`tty_nr >> 8`, `tty_nr & 0xff`) and in `verify_tty_path` (`rdev >> 8`,
`rdev & 0xff`).  The source's `>> 8` on `i32` is an arithmetic shift,
rendered by the two's-complement `Int.shiftRight`; `& 0xff` extracts the low
byte of the two's-complement representation, which for any integer is the
nonnegative remainder `% 256`. -/
def decode_tty_nr (tty_nr : Int) : Int × Int :=
  (tty_nr >>> (8 : Nat), tty_nr % 256)

/-- The per-process metadata source: `proc_stat pid` models
`std::fs::read_to_string("/proc/<pid>/stat")`, `none` being a failed read. -/
structure ProcFS where
  proc_stat : Int → Option String

/-- `TtyDriver::get_tty_nr_for_pid`: reject the sentinel pid `-1` before any
read, then take whitespace-separated field 6 of the stat line, parse it as
`i32` and decode it; every failure is `none`. -/
def get_tty_nr_for_pid (fs : ProcFS) (pid : Int) : Option (Int × Int) :=
  if pid == -1 then none
  else do
    let stat ← fs.proc_stat pid
    let field ← (split_whitespace stat.data)[6]?
    let tty_nr ← parse_i32 field
    some (decode_tty_nr tty_nr)

/-! ### Path guessing and verification -/

/-- The device-node metadata source: `rdev_of path` is
`path.metadata().rdev()` (a `u64`, modelled as `Nat`) when the path exists
and its metadata is readable, and `none` otherwise.  `Path::exists` and
`Path::metadata` consult the same map. -/
structure DevFS where
  rdev_of : String → Option Nat

/-- Rust `metadata.rdev() as i32`: truncate the `u64` to its low 32 bits and
reinterpret them as a two's-complement `i32`. -/
def u64_as_i32 (r : Nat) : Int :=
  if r % 4294967296 < 2147483648 then ((r % 4294967296 : Nat) : Int)
  else ((r % 4294967296 : Nat) : Int) - 4294967296

/-- `Path::exists` under the `DevFS` model. -/
def path_exists (fs : DevFS) (path : String) : Bool :=
  (fs.rdev_of path).isSome

/-- `TtyDriver::verify_tty_path`: stat the path; on success decode the
`rdev` (cast to `i32`) with the same shift/mask convention and compare both
components against the target; any metadata failure is `false`. -/
def verify_tty_path (fs : DevFS) (path : String) (tty_major tty_minor : Int) : Bool :=
  match fs.rdev_of path with
  | some r =>
    let rdev := u64_as_i32 r
    let dev_major := (decode_tty_nr rdev).1
    let dev_minor := (decode_tty_nr rdev).2
    decide (dev_major = tty_major) && decide (dev_minor = tty_minor)
  | none => false

/-- Rust `Path::join(seg)` for the non-absolute segment used here (a decimal
numeral): append the segment, inserting `'/'` unless the path is empty or
already ends in `'/'`.  (The replacement behaviour of `join` for absolute
segments is not modelled: `format!("{tty_minor}")` never starts with `'/'`.) -/
def path_join (path seg : String) : String :=
  if path.data.getLast? = some '/' then path ++ seg
  else if path.data = [] then seg
  else path ++ "/" ++ seg

/-- `TtyDriver::guess_tty_path`: try the prefix joined with the minor as a
path segment (e.g. `/dev/tty/2`), then the minor appended directly
(e.g. `/dev/tty2`); return the first candidate that exists and verifies. -/
def guess_tty_path (fs : DevFS) (path : String) (tty_major tty_minor : Int) :
    Option String :=
  let res := path_join path (toString tty_minor)
  if path_exists fs res && verify_tty_path fs res tty_major tty_minor then some res
  else
    let second_try := path ++ toString tty_minor
    if path_exists fs second_try && verify_tty_path fs second_try tty_major tty_minor then
      some second_try
    else none

/-- `TtyDriver::find_tty_for_pid`: the full pipeline, with all three
filesystem capabilities passed explicitly. -/
def find_tty_for_pid (pfs : ProcFS) (registry : Option String) (dfs : DevFS)
    (pid : Int) : Option String := do
  let nr ← get_tty_nr_for_pid pfs pid
  let drivers := parse_tty_drivers registry
  let driver ← match_drivers_to_tty_nr drivers nr.1 nr.2
  let path ← guess_tty_path dfs driver.path nr.1 nr.2
  some path

/-! ### Concrete fixtures used by the claims -/

/-- A device filesystem on which both `/dev/pts/3` and `/dev/pts3` exist
with `rdev = 136 * 256 + 3`, i.e. both decode to `(136, 3)`. -/
def pts_fixture : DevFS :=
  ⟨fun p => if p = "/dev/pts/3" || p = "/dev/pts3" then some 34819 else none⟩

/-- A process filesystem with a single stat record for pid 42 whose field 6
is the packed device number 1280. -/
def stat_fixture : ProcFS :=
  ⟨fun pid => if pid = 42 then some "42 (bash) S 1 42 42 1280 0 0" else none⟩

/-- An empty device filesystem (no path exists). -/
def empty_devfs : DevFS := ⟨fun _ => none⟩

/-- An empty process filesystem (every read fails). -/
def empty_procfs : ProcFS := ⟨fun _ => none⟩

/-! ### Helper lemmas -/

theorem splitP_ne_nil (p : Char → Bool) (cs : List Char) : splitP p cs ≠ [] := by
  induction cs with
  | nil => simp [splitP]
  | cons c cs ih =>
    simp only [splitP]
    split
    · simp
    · cases h : splitP p cs with
      | nil => exact absurd h ih
      | cons r rs => simp [h]

theorem splitP_cons_pos {p : Char → Bool} {c : Char} (cs : List Char) (h : p c = true) :
    splitP p (c :: cs) = [] :: splitP p cs := by
  simp [splitP, h]

theorem splitP_cons_neg {p : Char → Bool} {c : Char} {cs r : List Char}
    {rs : List (List Char)} (h : p c = false) (hs : splitP p cs = r :: rs) :
    splitP p (c :: cs) = (c :: r) :: rs := by
  simp only [splitP, h]
  simp [hs]

theorem splitChar_no_sep {sep : Char} {cs : List Char} (h : ∀ c ∈ cs, c ≠ sep) :
    splitChar sep cs = [cs] := by
  induction cs with
  | nil => rfl
  | cons c cs ih =>
    have hc : (c == sep) = false := by
      simp [h c (List.mem_cons_self c cs)]
    have ht : splitChar sep cs = [cs] := ih fun d hd => h d (List.mem_cons_of_mem c hd)
    exact splitP_cons_neg hc ht

theorem splitChar_append_sep {sep : Char} {a : List Char} (b : List Char)
    (h : ∀ c ∈ a, c ≠ sep) :
    splitChar sep (a ++ sep :: b) = a :: splitChar sep b := by
  induction a with
  | nil => exact splitP_cons_pos b (by simp)
  | cons c a ih =>
    have hc : (c == sep) = false := by
      simp [h c (List.mem_cons_self c a)]
    have ht := ih fun d hd => h d (List.mem_cons_of_mem c hd)
    exact splitP_cons_neg hc ht

theorem parse_tty_driver_lines_eq_filterMap (ls : List (List Char)) :
    parse_tty_driver_lines ls = ls.filterMap parse_driver_line := by
  induction ls with
  | nil => rfl
  | cons l ls ih =>
    simp only [parse_tty_driver_lines, List.filterMap_cons]
    cases parse_driver_line l <;> simp [ih]

theorem driver_pred_iff (d : TtyDriver) (maj minr : Int) :
    (d.major == maj && d.minor_range.contains minr) = true ↔
      d.major = maj ∧ d.minor_range.start ≤ minr ∧ minr ≤ d.minor_range.stop := by
  simp [MinorRange.contains, Bool.and_eq_true, beq_iff_eq, decide_eq_true_eq, and_assoc]

/-! ### Claim theorems -/

/-- C1: for every driver list and target `(major, minor)`, the matcher
returns the first record in list order whose major equals the target major
and whose inclusive minor range contains the target minor; it returns `none`
exactly when no record satisfies both conditions; and on the list
`[{major 4, 1..=63}, {major 4, 64..=95}]` with target `(4, 70)` it returns
exactly the second record. -/
theorem claim1_matcher_first_in_order :
    (∀ (drivers : List TtyDriver) (maj minr : Int) (d : TtyDriver),
      match_drivers_to_tty_nr drivers maj minr = some d ↔
        (d.major = maj ∧ d.minor_range.start ≤ minr ∧ minr ≤ d.minor_range.stop) ∧
        ∃ pre post, drivers = pre ++ d :: post ∧
          ∀ e ∈ pre,
            ¬(e.major = maj ∧ e.minor_range.start ≤ minr ∧ minr ≤ e.minor_range.stop)) ∧
    (∀ (drivers : List TtyDriver) (maj minr : Int),
      match_drivers_to_tty_nr drivers maj minr = none ↔
        ∀ e ∈ drivers,
          ¬(e.major = maj ∧ e.minor_range.start ≤ minr ∧ minr ≤ e.minor_range.stop)) ∧
    match_drivers_to_tty_nr
      [{ path := "a", major := 4, minor_range := { start := 1, stop := 63 } },
       { path := "b", major := 4, minor_range := { start := 64, stop := 95 } }] 4 70 =
      some { path := "b", major := 4, minor_range := { start := 64, stop := 95 } } := by
  refine ⟨fun drivers maj minr d => ?_, fun drivers maj minr => ?_, by decide⟩
  · rw [match_drivers_to_tty_nr, List.find?_eq_some]
    simp only [driver_pred_iff, Bool.not_eq_eq_eq_not, Bool.not_true,
      ← Bool.not_eq_true, driver_pred_iff]
  · rw [match_drivers_to_tty_nr, List.find?_eq_none]
    simp only [driver_pred_iff]

/-- C1 witness: the matcher applied to a concrete singleton list through the
`some`-characterization of `claim1_matcher_first_in_order`. -/
theorem claim1_matcher_first_in_order_witness :
    match_drivers_to_tty_nr
      [{ path := "b", major := 4, minor_range := { start := 64, stop := 95 } }] 4 70 =
      some { path := "b", major := 4, minor_range := { start := 64, stop := 95 } } :=
  (claim1_matcher_first_in_order.1 _ 4 70 _).mpr
    ⟨by decide, [], [], rfl, by simp⟩

/-- C6: the minor-specification parser maps a dash-free integer string `N`
to `N..=N` and a pair `N-M` (dash-free parsable bounds) to `N..=M`; a split
with three or more pieces, or an unparsable bound, gives `none`; and the
four concrete examples of the spec hold. -/
theorem claim6_minor_range_shapes :
    parse_minor_range "5".data = some { start := 5, stop := 5 } ∧
    parse_minor_range "0-255".data = some { start := 0, stop := 255 } ∧
    parse_minor_range "bad".data = none ∧
    parse_minor_range "1-2-3".data = none ∧
    (∀ (cs : List Char) (n : Int), (∀ c ∈ cs, c ≠ '-') → parse_i32 cs = some n →
      parse_minor_range cs = some { start := n, stop := n }) ∧
    (∀ (a b : List Char) (n m : Int), (∀ c ∈ a, c ≠ '-') → (∀ c ∈ b, c ≠ '-') →
      parse_i32 a = some n → parse_i32 b = some m →
      parse_minor_range (a ++ '-' :: b) = some { start := n, stop := m }) ∧
    (∀ cs : List Char, 3 ≤ (splitChar '-' cs).length → parse_minor_range cs = none) ∧
    (∀ cs : List Char, parse_i32 ((splitChar '-' cs).getD 0 []) = none →
      parse_minor_range cs = none) ∧
    (∀ cs : List Char, (splitChar '-' cs).length = 2 →
      parse_i32 ((splitChar '-' cs).getD 1 []) = none → parse_minor_range cs = none) := by
  refine ⟨by decide, by decide, by decide, by decide,
    fun cs n hnd hp => ?_, fun a b n m ha hb hpa hpb => ?_,
    fun cs h3 => ?_, fun cs hp => ?_, fun cs h2 hp => ?_⟩
  · simp [parse_minor_range, splitChar_no_sep hnd, hp]
  · have hs : splitChar '-' (a ++ '-' :: b) = [a, b] := by
      rw [splitChar_append_sep b ha, splitChar_no_sep hb]
    simp [parse_minor_range, hs, hpa, hpb]
  · simp only [parse_minor_range]
    rw [if_neg (by omega), if_neg (by omega)]
  · by_cases h1 : (splitChar '-' cs).length = 1
    · obtain ⟨a, ha⟩ := List.length_eq_one.mp h1
      rw [ha] at hp
      simp only [List.getD_cons_zero] at hp
      simp [parse_minor_range, ha, hp]
    · by_cases h2 : (splitChar '-' cs).length = 2
      · obtain ⟨a, b, hab⟩ := List.length_eq_two.mp h2
        rw [hab] at hp
        simp only [List.getD_cons_zero] at hp
        simp [parse_minor_range, hab, hp]
      · simp [parse_minor_range, h1, h2]
  · obtain ⟨a, b, hab⟩ := List.length_eq_two.mp h2
    rw [hab] at hp
    simp only [List.getD_cons_succ, List.getD_cons_zero] at hp
    cases hfirst : parse_i32 a with
    | none => simp [parse_minor_range, hab, hfirst]
    | some v => simp [parse_minor_range, hab, hfirst, hp]

/-- C6 witness: the general single-integer and pair cases of
`claim6_minor_range_shapes` instantiated on `"7"` and `"2-9"`. -/
theorem claim6_minor_range_shapes_witness :
    parse_minor_range "7".data = some { start := 7, stop := 7 } ∧
    parse_minor_range ['2', '-', '9'] = some { start := 2, stop := 9 } :=
  ⟨claim6_minor_range_shapes.2.2.2.2.1 "7".data 7 (by decide) (by decide),
   claim6_minor_range_shapes.2.2.2.2.2.1 ['2'] ['9'] 2 9
     (by decide) (by decide) (by decide) (by decide)⟩

/-- C10: a minor specification starting with `'-'` (e.g. `"-5"`) always
parses to `none`: the split on `'-'` makes the first piece empty, and the
empty string fails integer parsing, so no record with a leading-dash
(negative) minor bound is ever produced. -/
theorem claim10_leading_dash_minor_spec :
    (∀ cs : List Char, parse_minor_range ('-' :: cs) = none) ∧
    parse_minor_range "-5".data = none := by
  refine ⟨fun cs => ?_, by decide⟩
  have hs : splitChar '-' ('-' :: cs) = [] :: splitChar '-' cs :=
    splitP_cons_pos cs (by decide)
  obtain ⟨r, rs, hr⟩ : ∃ r rs, splitChar '-' cs = r :: rs := by
    cases h : splitChar '-' cs with
    | nil => exact absurd h (splitP_ne_nil _ _)
    | cons r rs => exact ⟨r, rs, rfl⟩
  rw [hr] at hs
  cases rs with
  | nil => simp [parse_minor_range, hs, parse_i32]
  | cons r2 rs2 =>
    simp only [parse_minor_range, hs]
    rw [if_neg (by simp), if_neg (by simp)]

/-- C4 counterexample: the claim "every parsed record has a non-empty minor
range (start ≤ end)" is false: the registry line `"x /dev/x 1 5-3 y"` parses
to a record whose range is `5..=3`. -/
theorem claim4_counterexample_nonempty_range :
    ¬(∀ (registry : Option String) (d : TtyDriver), d ∈ parse_tty_drivers registry →
        d.minor_range.start ≤ d.minor_range.stop) := by
  intro h
  have hd := h (some "x /dev/x 1 5-3 y")
    { path := "/dev/x", major := 1, minor_range := { start := 5, stop := 3 } } (by decide)
  exact absurd hd (by decide)

/-- C4 (amended): the parser copies the parsed bounds verbatim and does not
enforce `start ≤ end`: the dash pair `5-3` produces the record with range
`5..=3`; only records coming from a dash-free (single integer) minor
specification are guaranteed `start = end`. -/
theorem claim4_amended_range_bounds_verbatim :
    parse_tty_drivers (some "x /dev/x 1 5-3 y") =
      [{ path := "/dev/x", major := 1, minor_range := { start := 5, stop := 3 } }] ∧
    (∀ (cs : List Char) (r : MinorRange), (∀ c ∈ cs, c ≠ '-') →
      parse_minor_range cs = some r → r.start = r.stop) := by
  refine ⟨by decide, fun cs r hnd hp => ?_⟩
  cases hn : parse_i32 cs with
  | none => simp [parse_minor_range, splitChar_no_sep hnd, hn] at hp
  | some n =>
    simp [parse_minor_range, splitChar_no_sep hnd, hn] at hp
    subst hp
    rfl

/-- C4 witness: the dash-free case of `claim4_amended_range_bounds_verbatim`
applied to the specification `"7"`. -/
theorem claim4_amended_range_bounds_verbatim_witness :
    ({ start := 7, stop := 7 } : MinorRange).start =
      ({ start := 7, stop := 7 } : MinorRange).stop :=
  claim4_amended_range_bounds_verbatim.2 "7".data { start := 7, stop := 7 }
    (by decide) (by decide)

/-- C5: the parser is total: an unreadable registry gives the empty list; on
readable text it is the line-wise `filterMap` of the single-line parser (so
each malformed line is skipped and parsing continues); a line with fewer
than 4 fields, an unparsable major, or an unparsable minor specification is
skipped; a concrete registry with a malformed middle line still yields the
records of the surrounding well-formed lines. -/
theorem claim5_parser_total_skips_malformed :
    parse_tty_drivers none = [] ∧
    (∀ text : String,
      parse_tty_drivers (some text) = (rust_lines text.data).filterMap parse_driver_line) ∧
    (∀ line : List Char, (split_whitespace line).length < 4 →
      parse_driver_line line = none) ∧
    (∀ line : List Char, parse_i32 ((split_whitespace line).getD 2 []) = none →
      parse_driver_line line = none) ∧
    (∀ line : List Char, parse_minor_range ((split_whitespace line).getD 3 []) = none →
      parse_driver_line line = none) ∧
    parse_tty_drivers (some "a b 1 2\nbad line\nc d 3 4-5 x") =
      [{ path := "b", major := 1, minor_range := { start := 2, stop := 2 } },
       { path := "d", major := 3, minor_range := { start := 4, stop := 5 } }] := by
  refine ⟨rfl, fun text => parse_tty_driver_lines_eq_filterMap _,
    fun line h => by simp [parse_driver_line, h], fun line hp => ?_, fun line hp => ?_,
    by decide⟩
  · by_cases h4 : (split_whitespace line).length < 4
    · simp [parse_driver_line, h4]
    · simp only [List.getD_eq_getElem?_getD] at hp
      simp [parse_driver_line, h4, hp]
  · by_cases h4 : (split_whitespace line).length < 4
    · simp [parse_driver_line, h4]
    · simp only [List.getD_eq_getElem?_getD] at hp
      cases hmaj : parse_i32 ((split_whitespace line)[2]?.getD []) with
      | none => simp [parse_driver_line, h4, hmaj]
      | some v => simp [parse_driver_line, h4, hmaj, hp]

/-- C5 witness: the skip conditions of `claim5_parser_total_skips_malformed`
evaluated on concrete malformed lines. -/
theorem claim5_parser_total_skips_malformed_witness :
    parse_driver_line "too few".data = none ∧
    parse_driver_line "a b badmajor 1 x".data = none ∧
    parse_driver_line "a b 1 badminor x".data = none :=
  ⟨claim5_parser_total_skips_malformed.2.2.1 "too few".data (by decide),
   claim5_parser_total_skips_malformed.2.2.2.1 "a b badmajor 1 x".data (by decide),
   claim5_parser_total_skips_malformed.2.2.2.2.1 "a b 1 badminor x".data (by decide)⟩

/-- C7: on a well-formed line, field 1 (0-indexed) is the path, field 2 the
decimal major, field 3 the minor specification; the output preserves file
order (line-wise `filterMap`); and the spec's `pty_slave` example line parses
to exactly the stated record. -/
theorem claim7_field_positions_and_order :
    parse_driver_line "pty_slave /dev/pts 136 0-1048575 pty:slave".data =
      some { path := "/dev/pts", major := 136,
             minor_range := { start := 0, stop := 1048575 } } ∧
    parse_tty_drivers (some "pty_slave /dev/pts 136 0-1048575 pty:slave") =
      [{ path := "/dev/pts", major := 136,
         minor_range := { start := 0, stop := 1048575 } }] ∧
    (∀ (line : List Char) (parts : List (List Char)) (maj : Int) (r : MinorRange),
      split_whitespace line = parts → 4 ≤ parts.length →
      parse_i32 (parts.getD 2 []) = some maj →
      parse_minor_range (parts.getD 3 []) = some r →
      parse_driver_line line =
        some { path := String.mk (parts.getD 1 []), major := maj, minor_range := r }) ∧
    (∀ text : String,
      parse_tty_drivers (some text) = (rust_lines text.data).filterMap parse_driver_line) := by
  refine ⟨by decide, by decide, fun line parts maj r hparts h4 hmaj hr => ?_,
    fun text => parse_tty_driver_lines_eq_filterMap _⟩
  simp only [List.getD_eq_getElem?_getD] at hmaj hr
  simp only [parse_driver_line, hparts]
  rw [if_neg (by omega)]
  simp [hmaj, hr, List.getD_eq_getElem?_getD]

/-- C7 witness: the field-extraction case of
`claim7_field_positions_and_order` on the concrete line `"n p 1 2"`. -/
theorem claim7_field_positions_and_order_witness :
    parse_driver_line "n p 1 2".data =
      some { path := "p", major := 1, minor_range := { start := 2, stop := 2 } } :=
  claim7_field_positions_and_order.2.2.1 "n p 1 2".data
    [['n'], ['p'], ['1'], ['2']] 1 { start := 2, stop := 2 }
    (by decide) (by decide) (by decide) (by decide)

/-- C3: decoding a packed device number is exactly the arithmetic shift
`packed >> 8` (floor division by 256) for the major and the low byte
`packed & 0xFF` (`% 256`) for the minor, applied with no further validation
to whatever integer field 6 parses to — negative and zero values included;
`1280` decodes to `(5, 0)`. -/
theorem claim3_decode_bit_convention :
    (∀ n : Int, decode_tty_nr n = (n / 256, n % 256)) ∧
    (∀ (fs : ProcFS) (pid : Int) (stat : String) (field : List Char) (n : Int),
      pid ≠ -1 → fs.proc_stat pid = some stat →
      (split_whitespace stat.data)[6]? = some field →
      parse_i32 field = some n →
      get_tty_nr_for_pid fs pid = some (decode_tty_nr n)) ∧
    decode_tty_nr 1280 = (5, 0) ∧
    decode_tty_nr 0 = (0, 0) ∧
    decode_tty_nr (-513) = (-3, 255) := by
  refine ⟨fun n => ?_, fun fs pid stat field n hpid hstat hfield hparse => ?_,
    by decide, by decide, by decide⟩
  · rw [decode_tty_nr, Int.shiftRight_eq_div_pow]
    norm_num
  · simp [get_tty_nr_for_pid, hpid, hstat, hfield, hparse]

/-- C3 witness: the reader applied to the concrete stat fixture (pid 42,
field 6 = `1280`) through `claim3_decode_bit_convention`. -/
theorem claim3_decode_bit_convention_witness :
    get_tty_nr_for_pid stat_fixture 42 = some (decode_tty_nr 1280) :=
  claim3_decode_bit_convention.2.1 stat_fixture 42 "42 (bash) S 1 42 42 1280 0 0"
    "1280".data 1280 (by decide) (by decide) (by decide) (by decide)

/-- C8: the device-number reader returns `none` for the sentinel pid `-1`
whatever the filesystem contains (no access is needed), and returns `none`
whenever the stat record is unreadable, field 6 is absent, or field 6 does
not parse as an integer. -/
theorem claim8_reader_failure_modes :
    (∀ fs : ProcFS, get_tty_nr_for_pid fs (-1) = none) ∧
    (∀ (fs : ProcFS) (pid : Int), fs.proc_stat pid = none →
      get_tty_nr_for_pid fs pid = none) ∧
    (∀ (fs : ProcFS) (pid : Int) (stat : String), fs.proc_stat pid = some stat →
      (split_whitespace stat.data)[6]? = none → get_tty_nr_for_pid fs pid = none) ∧
    (∀ (fs : ProcFS) (pid : Int) (stat : String) (field : List Char),
      fs.proc_stat pid = some stat → (split_whitespace stat.data)[6]? = some field →
      parse_i32 field = none → get_tty_nr_for_pid fs pid = none) := by
  refine ⟨fun fs => by simp [get_tty_nr_for_pid],
    fun fs pid h => ?_, fun fs pid stat h1 h2 => ?_, fun fs pid stat field h1 h2 h3 => ?_⟩
  · by_cases hp : pid = -1
    · simp [get_tty_nr_for_pid, hp]
    · simp [get_tty_nr_for_pid, hp, h]
  · by_cases hp : pid = -1
    · simp [get_tty_nr_for_pid, hp]
    · simp [get_tty_nr_for_pid, hp, h1, h2]
  · by_cases hp : pid = -1
    · simp [get_tty_nr_for_pid, hp]
    · simp [get_tty_nr_for_pid, hp, h1, h2, h3]

/-- C8 witness: the sentinel and the unreadable-record cases of
`claim8_reader_failure_modes` on concrete filesystems (note the sentinel
case holds even on a filesystem that has a record for pid `-1`). -/
theorem claim8_reader_failure_modes_witness :
    get_tty_nr_for_pid ⟨fun _ => some "0 a b c d e 99 f"⟩ (-1) = none ∧
    get_tty_nr_for_pid empty_procfs 5 = none :=
  ⟨claim8_reader_failure_modes.1 ⟨fun _ => some "0 a b c d e 99 f"⟩,
   claim8_reader_failure_modes.2.1 empty_procfs 5 rfl⟩

/-- Helper for C9: verification can only succeed when the target minor is a
low byte, because the candidate's decoded minor is `rdev % 256 ∈ [0, 255]`. -/
theorem verify_tty_path_minor_out_of_range (fs : DevFS) (path : String)
    (tty_major tty_minor : Int) (h : 255 < tty_minor ∨ tty_minor < 0) :
    verify_tty_path fs path tty_major tty_minor = false := by
  cases hr : fs.rdev_of path with
  | none => simp [verify_tty_path, hr]
  | some r =>
    simp only [verify_tty_path, hr, decode_tty_nr, Bool.and_eq_false_iff,
      decide_eq_false_iff_not]
    right
    omega

/-- C9: every decoded minor — from a process's packed device number or from
a candidate path's `rdev` during verification — lies in `0..=255`; hence no
target minor outside that band is ever produced by the reader, verified
against a path, or resolved by the path guesser. -/
theorem claim9_minor_always_low_byte :
    (∀ n : Int, 0 ≤ (decode_tty_nr n).2 ∧ (decode_tty_nr n).2 ≤ 255) ∧
    (∀ (fs : ProcFS) (pid maj minr : Int),
      get_tty_nr_for_pid fs pid = some (maj, minr) → 0 ≤ minr ∧ minr ≤ 255) ∧
    (∀ (fs : DevFS) (path : String) (maj minr : Int),
      verify_tty_path fs path maj minr = true → 0 ≤ minr ∧ minr ≤ 255) ∧
    (∀ (fs : DevFS) (path : String) (maj minr : Int), 255 < minr ∨ minr < 0 →
      verify_tty_path fs path maj minr = false) ∧
    (∀ (fs : DevFS) (path : String) (maj minr : Int), 255 < minr ∨ minr < 0 →
      guess_tty_path fs path maj minr = none) := by
  refine ⟨fun n => ?_, fun fs pid maj minr h => ?_, fun fs path maj minr h => ?_,
    verify_tty_path_minor_out_of_range, fun fs path maj minr h => ?_⟩
  · simp only [decode_tty_nr]
    omega
  · by_cases hp : pid = -1
    · simp [get_tty_nr_for_pid, hp] at h
    · simp only [get_tty_nr_for_pid, hp] at h
      cases hstat : fs.proc_stat pid with
      | none => simp [hstat] at h
      | some stat =>
        simp only [hstat, beq_iff_eq, if_neg hp, Option.bind_eq_bind,
          Option.some_bind] at h
        cases hfield : (split_whitespace stat.data)[6]? with
        | none => simp [hfield] at h
        | some field =>
          simp only [hfield, Option.some_bind] at h
          cases hn : parse_i32 field with
          | none => simp [hn] at h
          | some n =>
            simp only [hn, Option.some_bind, Option.some_inj, decode_tty_nr] at h
            have : minr = n % 256 := by
              have := congrArg Prod.snd h
              simpa using this.symm
            omega
  · cases hr : fs.rdev_of path with
    | none => simp [verify_tty_path, hr] at h
    | some r =>
      simp only [verify_tty_path, hr, decode_tty_nr, Bool.and_eq_true,
        decide_eq_true_eq] at h
      omega
  · have h1 := verify_tty_path_minor_out_of_range fs
      (path_join path (toString minr)) maj minr h
    have h2 := verify_tty_path_minor_out_of_range fs
      (path ++ toString minr) maj minr h
    simp [guess_tty_path, h1, h2]

/-- C9 witness: the out-of-range cases of `claim9_minor_always_low_byte` on
a concrete filesystem and minor 300, and the reader case on the stat
fixture (minor 0). -/
theorem claim9_minor_always_low_byte_witness :
    verify_tty_path pts_fixture "/dev/pts/3" 136 300 = false ∧
    guess_tty_path pts_fixture "/dev/pts" 136 300 = none ∧
    (0 ≤ (0 : Int) ∧ (0 : Int) ≤ 255) :=
  ⟨claim9_minor_always_low_byte.2.2.2.1 pts_fixture "/dev/pts/3" 136 300 (by decide),
   claim9_minor_always_low_byte.2.2.2.2 pts_fixture "/dev/pts" 136 300 (by decide),
   claim9_minor_always_low_byte.2.1 stat_fixture 42 5 0 (by decide)⟩

/-- C2: the path resolver tries exactly two candidates in strict order —
the prefix joined with the minor as a path segment, then the minor appended
directly — returning the first that exists and verifies; a candidate that is
missing or fails verification is skipped, and the result is `none` exactly
when neither candidate exists-and-verifies.  On a filesystem where both
`/dev/pts/3` and `/dev/pts3` exist and verify as `(136, 3)`, the first
candidate `/dev/pts/3` wins. -/
theorem claim2_resolver_candidate_order :
    (∀ (fs : DevFS) (p : String) (maj minr : Int) (c1 c2 : String),
      c1 = path_join p (toString minr) → c2 = p ++ toString minr →
      ((guess_tty_path fs p maj minr = some c1 ↔
          path_exists fs c1 = true ∧ verify_tty_path fs c1 maj minr = true) ∧
       (¬(path_exists fs c1 = true ∧ verify_tty_path fs c1 maj minr = true) →
         (guess_tty_path fs p maj minr = some c2 ↔
           path_exists fs c2 = true ∧ verify_tty_path fs c2 maj minr = true)) ∧
       (guess_tty_path fs p maj minr = none ↔
         ¬(path_exists fs c1 = true ∧ verify_tty_path fs c1 maj minr = true) ∧
         ¬(path_exists fs c2 = true ∧ verify_tty_path fs c2 maj minr = true)))) ∧
    guess_tty_path pts_fixture "/dev/pts" 136 3 = some "/dev/pts/3" := by
  refine ⟨fun fs p maj minr c1 c2 h1 h2 => ?_, by decide⟩
  subst h1; subst h2
  have hand1 : (path_exists fs (path_join p (toString minr)) &&
      verify_tty_path fs (path_join p (toString minr)) maj minr) = true ↔
      path_exists fs (path_join p (toString minr)) = true ∧
        verify_tty_path fs (path_join p (toString minr)) maj minr = true := by
    simp
  have hand2 : (path_exists fs (p ++ toString minr) &&
      verify_tty_path fs (p ++ toString minr) maj minr) = true ↔
      path_exists fs (p ++ toString minr) = true ∧
        verify_tty_path fs (p ++ toString minr) maj minr = true := by
    simp
  by_cases hb1 : (path_exists fs (path_join p (toString minr)) &&
      verify_tty_path fs (path_join p (toString minr)) maj minr) = true
  · have hg : guess_tty_path fs p maj minr = some (path_join p (toString minr)) := by
      simp [guess_tty_path, hb1]
    refine ⟨by rw [hg]; exact iff_of_true rfl (hand1.mp hb1),
      fun hn => absurd (hand1.mp hb1) hn,
      by rw [hg]; exact iff_of_false (by simp) (fun hc => hc.1 (hand1.mp hb1))⟩
  · by_cases hb2 : (path_exists fs (p ++ toString minr) &&
        verify_tty_path fs (p ++ toString minr) maj minr) = true
    · have hg : guess_tty_path fs p maj minr = some (p ++ toString minr) := by
        simp [guess_tty_path, hb1, hb2]
      refine ⟨?_, fun _ => by rw [hg]; exact iff_of_true rfl (hand2.mp hb2),
        by rw [hg]; exact iff_of_false (by simp) (fun hc => hc.2 (hand2.mp hb2))⟩
      · rw [hg]
        refine iff_of_false (fun heq => ?_) (fun hc => hb1 (hand1.mpr hc))
        have hpath : p ++ toString minr = path_join p (toString minr) :=
          Option.some.inj heq
        rw [hpath] at hb2
        exact hb1 hb2
    · have hg : guess_tty_path fs p maj minr = none := by
        simp only [guess_tty_path]
        rw [if_neg hb1, if_neg hb2]
      exact ⟨by rw [hg]; exact iff_of_false (by simp) (fun hc => hb1 (hand1.mpr hc)),
        fun _ => by rw [hg]; exact iff_of_false (by simp) (fun hc => hb2 (hand2.mpr hc)),
        by rw [hg]; exact iff_of_true rfl ⟨fun hc => hb1 (hand1.mpr hc), fun hc => hb2 (hand2.mpr hc)⟩⟩

/-- C2 witness: the first-candidate case of
`claim2_resolver_candidate_order` on the `/dev/pts` fixture. -/
theorem claim2_resolver_candidate_order_witness :
    guess_tty_path pts_fixture "/dev/pts" 136 3 =
      some (path_join "/dev/pts" (toString (3 : Int))) :=
  ((claim2_resolver_candidate_order.1 pts_fixture "/dev/pts" 136 3
      (path_join "/dev/pts" (toString (3 : Int)))
      ("/dev/pts" ++ toString (3 : Int)) rfl rfl).1).mpr (by decide)
